import Mathlib

/-!
Formal model of `mac_changer.py` (AnkitTalaviya/MAC-Changer): the MAC address
codec (`validate_mac_address`, `generate_random_mac`, `_normalize_mac`) and the
`MACScheduler` scheduling logic (`is_within_schedule`, `calculate_next_interval`,
`start`, `stop`, the scheduler loop's polling wait, and the interactive interval
configuration).  Randomness is modelled by passing the drawn values explicitly;
clock time is modelled in seconds (for the loop) and hours/minutes (for the
active window).
-/

namespace MacChanger

/-! ### Character classes of the regex `([0-9A-Fa-f]{2}[:-]){5}([0-9A-Fa-f]{2})`
used by `MACChanger.validate_mac_address`. -/

/-- The class `[0-9A-Fa-f]`: ASCII codes 48-57, 65-70, 97-102. -/
def isHexDigit (c : Char) : Bool :=
  (48 ≤ c.toNat && c.toNat ≤ 57) || (65 ≤ c.toNat && c.toNat ≤ 70) ||
    (97 ≤ c.toNat && c.toNat ≤ 102)

/-- The class `[:-]`: a colon (code 58) or a hyphen (code 45). -/
def isSep (c : Char) : Bool :=
  c.toNat == 58 || c.toNat == 45

/-- `([0-9A-Fa-f]{2}[:-]){n}[0-9A-Fa-f]{2}` as a predicate on character lists:
`n` hex pairs each followed by a separator, then a final hex pair. -/
def groups : Nat → List Char → Bool
  | 0, [a, b] => isHexDigit a && isHexDigit b
  | n + 1, a :: b :: s :: rest =>
      isHexDigit a && isHexDigit b && isSep s && groups n rest
  | _, _ => false

/-- The full regex body of `validate_mac_address`: six 2-hex-digit groups
joined by five separators (17 characters). -/
def macCore (l : List Char) : Bool := groups 5 l

/-- `MACChanger.validate_mac_address`: `bool(mac_pattern.match(mac))` for the
anchored pattern `^([0-9A-Fa-f]{2}[:-]){5}([0-9A-Fa-f]{2})$`.  In Python
(without `re.MULTILINE`) `$` matches at the end of the string or just before a
single trailing newline, so the match succeeds on the exact 17-character form
or on that form followed by one `'\n'`. -/
def validate_mac_address (s : String) : Bool :=
  macCore s.data || (s.data.getLast? == some '\n' && macCore s.data.dropLast)

/-- Reading of "exactly six 2-hex-digit groups delimited by colons or
hyphens": 17 characters, a separator at every position `≡ 2 (mod 3)` and a hex
digit at every other position. -/
def sixGroupsPos (l : List Char) : Prop :=
  l.length = 17 ∧
    ∀ i : Fin l.length,
      if i.val % 3 = 2 then isSep (l.get i) = true else isHexDigit (l.get i) = true

instance (l : List Char) : Decidable (sixGroupsPos l) := by
  unfold sixGroupsPos; infer_instance

/-- Positional characterization of the group matcher: `groups n` accepts
exactly the lists of length `3*n + 2` with separators at positions `≡ 2 (mod
3)` and hex digits elsewhere. -/
theorem groups_eq_true_iff (n : Nat) (l : List Char) :
    groups n l = true ↔
      (l.length = 3 * n + 2 ∧
        ∀ i : Fin l.length,
          if i.val % 3 = 2 then isSep (l.get i) = true
          else isHexDigit (l.get i) = true) := by
  induction n generalizing l with
  | zero =>
    match l with
    | [] => simp [groups]
    | [a] => simp [groups]
    | [a, b] =>
      simp only [groups, Bool.and_eq_true]
      constructor
      · rintro ⟨ha, hb⟩
        refine ⟨rfl, ?_⟩
        intro i
        match i with
        | ⟨0, _⟩ => simpa using ha
        | ⟨1, _⟩ => simpa using hb
      · rintro ⟨-, h⟩
        exact ⟨by simpa using h ⟨0, by simp⟩, by simpa using h ⟨1, by simp⟩⟩
    | a :: b :: c :: rest =>
      constructor
      · intro h; simp [groups] at h
      · rintro ⟨hlen, -⟩
        simp only [List.length_cons] at hlen
        omega
  | succ n ih =>
    match l with
    | [] =>
      constructor
      · intro h; simp [groups] at h
      · rintro ⟨hlen, -⟩
        simp only [List.length_nil] at hlen
        omega
    | [a] =>
      constructor
      · intro h; simp [groups] at h
      · rintro ⟨hlen, -⟩
        simp only [List.length_cons, List.length_nil] at hlen
        omega
    | [a, b] =>
      constructor
      · intro h; simp [groups] at h
      · rintro ⟨hlen, -⟩
        simp only [List.length_cons, List.length_nil] at hlen
        omega
    | a :: b :: s :: rest =>
      simp only [groups, Bool.and_eq_true, ih]
      constructor
      · rintro ⟨⟨⟨ha, hb⟩, hs⟩, hlen, hrest⟩
        refine ⟨by simp only [List.length_cons, hlen]; omega, ?_⟩
        intro i
        match i with
        | ⟨0, _⟩ => simpa using ha
        | ⟨1, _⟩ => simpa using hb
        | ⟨2, _⟩ => simpa using hs
        | ⟨j + 3, hj⟩ =>
          have hj' : j < rest.length := by
            simp only [List.length_cons] at hj; omega
          have h := hrest ⟨j, hj'⟩
          have hmod : (j + 3) % 3 = j % 3 := by omega
          simp only [Fin.val_mk, hmod]
          exact h
      · rintro ⟨hlen, hall⟩
        have hlen' : rest.length = 3 * n + 2 := by
          simp only [List.length_cons] at hlen; omega
        refine ⟨⟨⟨?_, ?_⟩, ?_⟩, hlen', ?_⟩
        · simpa using hall ⟨0, by simp⟩
        · simpa using hall ⟨1, by simp⟩
        · simpa using hall ⟨2, by simp⟩
        · intro j
          have hj : j.val + 3 < (a :: b :: s :: rest).length := by
            simp only [List.length_cons]; omega
          have h := hall ⟨j.val + 3, hj⟩
          have hmod : (j.val + 3) % 3 = j.val % 3 := by omega
          simp only [Fin.val_mk, hmod] at h
          exact h

/-- The regex body accepts exactly the 17-character six-group forms. -/
theorem macCore_eq_true_iff (l : List Char) : macCore l = true ↔ sixGroupsPos l := by
  rw [macCore, groups_eq_true_iff, sixGroupsPos]

/-- `validate_mac_address` accepts exactly the six-group forms, with one
optional trailing newline tolerated by Python's `$`. -/
theorem validate_eq_true_iff (s : String) :
    validate_mac_address s = true ↔
      sixGroupsPos s.data ∨ ∃ t : List Char, s.data = t ++ ['\n'] ∧ sixGroupsPos t := by
  unfold validate_mac_address
  simp only [Bool.or_eq_true, Bool.and_eq_true, beq_iff_eq, macCore_eq_true_iff,
    List.getLast?_eq_some_iff]
  constructor
  · rintro (h | ⟨⟨t, ht⟩, hcore⟩)
    · exact Or.inl h
    · rw [ht, List.dropLast_concat] at hcore
      exact Or.inr ⟨t, ht, hcore⟩
  · rintro (h | ⟨t, ht, hcore⟩)
    · exact Or.inl h
    · refine Or.inr ⟨⟨t, ht⟩, ?_⟩
      rw [ht, List.dropLast_concat]
      exact hcore

example : validate_mac_address "02:11:22:33:44:55" = true := by decide
example : validate_mac_address "02-11-22-33-44-55" = true := by decide
example : validate_mac_address "0A:bC:22:33:44:5f" = true := by decide
example : validate_mac_address "021122334455" = false := by decide
example : validate_mac_address "02:11:22:33:44" = false := by decide
example : validate_mac_address "02:11:22:33:44:55:66" = false := by decide
example : validate_mac_address "02:11:22:33:44:55\n" = true := by decide
example : validate_mac_address "02:11:22:33:44:5G" = false := by decide
example : ¬ sixGroupsPos ("02:11:22:33:44:55\n".data) := by decide

/-! ### `_normalize_mac` -/

/-- `MACChanger._normalize_mac`: `clean_mac = re.sub(r'[:-]', '', mac.upper())`
then `separator.join([clean_mac[i:i+2] for i in range(0, 12, 2)])`.  On the
ASCII characters a validated MAC can contain, Python's `str.upper` is
`Char.toUpper`, and the slice `clean_mac[i:i+2]` is `(clean.drop i).take 2`. -/
def normalize_mac (s : String) (sep : Char) : String :=
  let clean := (s.data.map Char.toUpper).filter (fun c => !isSep c)
  ⟨List.intercalate [sep] ([0, 2, 4, 6, 8, 10].map (fun i => (clean.drop i).take 2))⟩

/-- Uppercasing a hex digit yields a hex digit that is not a separator. -/
theorem isHexDigit_toUpper {c : Char} (h : isHexDigit c = true) :
    isHexDigit c.toUpper = true ∧ isSep c.toUpper = false := by
  simp only [isHexDigit, Bool.or_eq_true, Bool.and_eq_true, decide_eq_true_eq] at h
  rcases h with (⟨h1, h2⟩ | ⟨h1, h2⟩) | ⟨h1, h2⟩
  · have hcond : ¬(c.toNat ≥ 97 ∧ c.toNat ≤ 122) := by omega
    have hupper : c.toUpper = c := by
      simp only [Char.toUpper]
      exact if_neg hcond
    rw [hupper]
    constructor
    · simp only [isHexDigit, Bool.or_eq_true, Bool.and_eq_true, decide_eq_true_eq]
      omega
    · simp only [isSep, Bool.or_eq_false_iff, beq_eq_false_iff_ne, ne_eq]
      omega
  · have hcond : ¬(c.toNat ≥ 97 ∧ c.toNat ≤ 122) := by omega
    have hupper : c.toUpper = c := by
      simp only [Char.toUpper]
      exact if_neg hcond
    rw [hupper]
    constructor
    · simp only [isHexDigit, Bool.or_eq_true, Bool.and_eq_true, decide_eq_true_eq]
      omega
    · simp only [isSep, Bool.or_eq_false_iff, beq_eq_false_iff_ne, ne_eq]
      omega
  · have e : Char.ofNat c.toNat = c := Char.ofNat_toNat c
    have hv : c.toNat = 97 ∨ c.toNat = 98 ∨ c.toNat = 99 ∨ c.toNat = 100 ∨
        c.toNat = 101 ∨ c.toNat = 102 := by omega
    rcases hv with hv | hv | hv | hv | hv | hv <;>
      (rw [hv] at e; subst e; exact ⟨by decide, by decide⟩)

/-- Uppercasing leaves a separator a separator. -/
theorem isSep_toUpper {c : Char} (h : isSep c = true) : isSep c.toUpper = true := by
  simp only [isSep, Bool.or_eq_true, beq_iff_eq] at h
  have hcond : ¬(c.toNat ≥ 97 ∧ c.toNat ≤ 122) := by omega
  have hupper : c.toUpper = c := by
    simp only [Char.toUpper]
    exact if_neg hcond
  rw [hupper]
  simp only [isSep, Bool.or_eq_true, beq_iff_eq]
  exact h

/-- Stripping separators from the uppercased characters of a matched group
list leaves `2*n + 2` hex digits. -/
theorem filter_upper_of_groups (n : Nat) (l : List Char) (h : groups n l = true) :
    ((l.map Char.toUpper).filter (fun c => !isSep c)).length = 2 * n + 2 ∧
      ∀ c ∈ (l.map Char.toUpper).filter (fun c => !isSep c), isHexDigit c = true := by
  induction n generalizing l with
  | zero =>
    rcases l with _ | ⟨a, _ | ⟨b, _ | ⟨c, rest⟩⟩⟩
    · simp [groups] at h
    · simp [groups] at h
    · simp only [groups, Bool.and_eq_true] at h
      obtain ⟨ha, hb⟩ := h
      have ha' := isHexDigit_toUpper ha
      have hb' := isHexDigit_toUpper hb
      constructor
      · simp [List.filter_cons, ha'.2, hb'.2]
      · intro c hc
        simp [List.filter_cons, ha'.2, hb'.2] at hc
        rcases hc with rfl | rfl
        · exact ha'.1
        · exact hb'.1
    · simp [groups] at h
  | succ n ih =>
    rcases l with _ | ⟨a, _ | ⟨b, _ | ⟨s, rest⟩⟩⟩
    · simp [groups] at h
    · simp [groups] at h
    · simp [groups] at h
    · simp only [groups, Bool.and_eq_true] at h
      obtain ⟨⟨⟨ha, hb⟩, hs⟩, hrest⟩ := h
      have ha' := isHexDigit_toUpper ha
      have hb' := isHexDigit_toUpper hb
      have hs' := isSep_toUpper hs
      obtain ⟨ihlen, ihhex⟩ := ih rest hrest
      have key : ((a :: b :: s :: rest).map Char.toUpper).filter (fun c => !isSep c) =
          a.toUpper :: b.toUpper ::
            ((rest.map Char.toUpper).filter (fun c => !isSep c)) := by
        simp [List.filter_cons, ha'.2, hb'.2, hs']
      rw [key]
      constructor
      · simp only [List.length_cons, ihlen]
        omega
      · intro c hc
        simp only [List.mem_cons] at hc
        rcases hc with rfl | rfl | hc
        · exact ha'.1
        · exact hb'.1
        · exact ihhex c hc

/-- Re-joining the first six 2-character slices of a list that starts with 12
hex digits produces a list the regex accepts, whatever trails past index 11. -/
theorem macCore_rejoin (hx rest : List Char) (sep : Char)
    (hlen : hx.length = 12) (hhex : ∀ c ∈ hx, isHexDigit c = true)
    (hsep : isSep sep = true) :
    macCore (List.intercalate [sep]
      ([0, 2, 4, 6, 8, 10].map (fun i => ((hx ++ rest).drop i).take 2))) = true := by
  rcases hx with _ | ⟨a0, _ | ⟨a1, _ | ⟨a2, _ | ⟨a3, _ | ⟨a4, _ | ⟨a5, _ | ⟨a6, _ |
    ⟨a7, _ | ⟨a8, _ | ⟨a9, _ | ⟨a10, _ | ⟨a11, tl⟩⟩⟩⟩⟩⟩⟩⟩⟩⟩⟩⟩ <;>
      simp only [List.length_cons, List.length_nil] at hlen <;> try omega
  have htl : tl = [] := by
    have h0 : tl.length = 0 := by omega
    exact List.length_eq_zero.mp h0
  subst htl
  have h0 : isHexDigit a0 = true := hhex a0 (by simp)
  have h1 : isHexDigit a1 = true := hhex a1 (by simp)
  have h2 : isHexDigit a2 = true := hhex a2 (by simp)
  have h3 : isHexDigit a3 = true := hhex a3 (by simp)
  have h4 : isHexDigit a4 = true := hhex a4 (by simp)
  have h5 : isHexDigit a5 = true := hhex a5 (by simp)
  have h6 : isHexDigit a6 = true := hhex a6 (by simp)
  have h7 : isHexDigit a7 = true := hhex a7 (by simp)
  have h8 : isHexDigit a8 = true := hhex a8 (by simp)
  have h9 : isHexDigit a9 = true := hhex a9 (by simp)
  have h10 : isHexDigit a10 = true := hhex a10 (by simp)
  have h11 : isHexDigit a11 = true := hhex a11 (by simp)
  simp [macCore, groups, List.intercalate, List.intersperse, h0, h1, h2, h3, h4,
    h5, h6, h7, h8, h9, h10, h11, hsep]

/-- For every string `validate_mac_address` accepts, normalizing with a colon
or hyphen separator yields a string `validate_mac_address` accepts again. -/
theorem normalize_roundtrip (s : String) (sep : Char)
    (hv : validate_mac_address s = true) (hsep : isSep sep = true) :
    validate_mac_address (normalize_mac s sep) = true := by
  rw [validate_eq_true_iff] at hv
  have main : ∃ hx rest, (s.data.map Char.toUpper).filter (fun c => !isSep c) =
      hx ++ rest ∧ hx.length = 12 ∧ ∀ c ∈ hx, isHexDigit c = true := by
    rcases hv with h | ⟨t, ht, h⟩
    · have hf := filter_upper_of_groups 5 s.data ((macCore_eq_true_iff _).mpr h)
      exact ⟨_, [], by simp, by simpa using hf.1, hf.2⟩
    · have hf := filter_upper_of_groups 5 t ((macCore_eq_true_iff _).mpr h)
      refine ⟨(t.map Char.toUpper).filter (fun c => !isSep c), ['\n'], ?_,
        by simpa using hf.1, hf.2⟩
      have hnl : Char.toUpper '\n' = '\n' := by decide
      have hnl2 : isSep '\n' = false := by decide
      rw [ht]
      simp [List.filter_cons, hnl, hnl2]
  obtain ⟨hx, rest, hclean, hlen, hhex⟩ := main
  rw [validate_eq_true_iff]
  left
  rw [← macCore_eq_true_iff]
  show macCore (List.intercalate [sep]
    ([0, 2, 4, 6, 8, 10].map (fun i =>
      (((s.data.map Char.toUpper).filter (fun c => !isSep c)).drop i).take 2))) = true
  rw [hclean]
  exact macCore_rejoin hx rest sep hlen hhex hsep

example : normalize_mac "02:11:22:aa-44-55" ':' = "02:11:22:AA:44:55" := by decide
example : validate_mac_address (normalize_mac "02:11:22:33:44:55\n" ':') = true := by
  decide

/-! ### `generate_random_mac` -/

/-- `random.choice(['02', '06', '0A', '0E'])`: the draw picks one of the four
candidate strings. -/
def firstBytePy : Fin 4 → List Char
  | ⟨0, _⟩ => ['0', '2']
  | ⟨1, _⟩ => ['0', '6']
  | ⟨2, _⟩ => ['0', 'A']
  | ⟨3, _⟩ => ['0', 'E']
  | ⟨n + 4, h⟩ => absurd h (by omega)

/-- One lowercase hex digit of Python's `f"{n:02x}"` formatting. -/
def lowerHexChar (n : Nat) : Char :=
  if n < 10 then Char.ofNat (48 + n) else Char.ofNat (87 + n)

/-- Python's `f"{n:02x}"` for `0 ≤ n ≤ 255`: exactly two lowercase hex digits. -/
def byteHex (n : Nat) : List Char := [lowerHexChar (n / 16), lowerHexChar (n % 16)]

/-- `MACChanger.generate_random_mac`: the first byte is one of `firstByteChoices`
(the `choice` draw of `random.choice`), the five remaining parts format the
five `random.randint(0, 255)` draws `o0`..`o4` with `f"{_:02x}"`, and the six
parts are joined with `':'`. -/
def generate_random_mac (choice : Fin 4) (o0 o1 o2 o3 o4 : Fin 256) : String :=
  ⟨List.intercalate [':']
    (firstBytePy choice ::
      [byteHex o0.val, byteHex o1.val, byteHex o2.val, byteHex o3.val, byteHex o4.val])⟩

/-- Numeric value of one hex digit character. -/
def hexDigitVal (c : Char) : Nat :=
  if c.toNat ≤ 57 then c.toNat - 48 else if c.toNat ≤ 70 then c.toNat - 55
  else c.toNat - 87

/-- Numeric value of the first octet (first two characters) of a MAC string. -/
def firstOctetVal (s : String) : Nat :=
  16 * hexDigitVal (s.data.headD '0') + hexDigitVal ((s.data.drop 1).headD '0')

theorem isHexDigit_lowerHexChar (k : Nat) (h : k < 16) :
    isHexDigit (lowerHexChar k) = true := by
  interval_cases k <;> decide

/-- Both digits of a formatted byte are hex digits. -/
theorem isHexDigit_byteHex (n : Fin 256) :
    isHexDigit (lowerHexChar (n.val / 16)) = true ∧
      isHexDigit (lowerHexChar (n.val % 16)) = true :=
  ⟨isHexDigit_lowerHexChar _ (by have := n.isLt; omega),
    isHexDigit_lowerHexChar _ (by omega)⟩

/-- Every address `generate_random_mac` produces passes `validate_mac_address`
and has first octet `0x02`, `0x06`, `0x0A` or `0x0E`. -/
theorem generate_random_mac_valid (choice : Fin 4) (o0 o1 o2 o3 o4 : Fin 256) :
    validate_mac_address (generate_random_mac choice o0 o1 o2 o3 o4) = true ∧
      firstOctetVal (generate_random_mac choice o0 o1 o2 o3 o4) ∈
        ({2, 6, 10, 14} : Finset Nat) := by
  obtain ⟨ha0, hb0⟩ := isHexDigit_byteHex o0
  obtain ⟨ha1, hb1⟩ := isHexDigit_byteHex o1
  obtain ⟨ha2, hb2⟩ := isHexDigit_byteHex o2
  obtain ⟨ha3, hb3⟩ := isHexDigit_byteHex o3
  obtain ⟨ha4, hb4⟩ := isHexDigit_byteHex o4
  have hx0 : isHexDigit '0' = true := by decide
  have hx2 : isHexDigit '2' = true := by decide
  have hx6 : isHexDigit '6' = true := by decide
  have hxA : isHexDigit 'A' = true := by decide
  have hxE : isHexDigit 'E' = true := by decide
  have hsc : isSep ':' = true := by decide
  obtain ⟨cv, hcv⟩ := choice
  interval_cases cv <;>
    refine ⟨?_, ?_⟩ <;>
      simp [generate_random_mac, firstBytePy, byteHex, validate_mac_address,
        macCore, groups, List.intercalate, List.intersperse, firstOctetVal,
        hexDigitVal, ha0, hb0, ha1, hb1, ha2, hb2, ha3, hb3, ha4, hb4, hx0,
        hx2, hx6, hxA, hxE, hsc]

/-! ## `MACScheduler` -/

/-- A time of day as produced by `datetime.strptime(_, "%H:%M").time()`. -/
structure TimeHM where
  hour : Nat
  minute : Nat
deriving DecidableEq, Repr

/-- Python `time` comparison `t1 <= t2`: lexicographic on (hour, minute). -/
def TimeHM.le (t1 t2 : TimeHM) : Prop :=
  t1.hour < t2.hour ∨ (t1.hour = t2.hour ∧ t1.minute ≤ t2.minute)

instance (t1 t2 : TimeHM) : Decidable (TimeHM.le t1 t2) := by
  unfold TimeHM.le; infer_instance

/-- `MACScheduler.is_within_schedule`: `start_time`/`end_time` are the parsed
config times and `now` is the parsed current time of day. -/
def is_within_schedule (start_time end_time now : TimeHM) : Bool :=
  if TimeHM.le start_time end_time then
    decide (TimeHM.le start_time now) && decide (TimeHM.le now end_time)
  else
    decide (TimeHM.le start_time now) || decide (TimeHM.le now end_time)

/-- The scheduler configuration dictionary (`MACScheduler.load_config` keys).
The two schedule times are stored already parsed; minute counts are Python
ints. -/
structure SchedulerConfig where
  interface : String
  mode : String
  fixed_interval_minutes : Int
  random_min_minutes : Int
  random_max_minutes : Int
  use_random_mac : Bool
  custom_mac_list : List String
  enabled : Bool
  start_time : TimeHM
  end_time : TimeHM
deriving DecidableEq, Repr

/-- The `default_config` dictionary of `load_config`. -/
def default_config : SchedulerConfig where
  interface := "Wi-Fi"
  mode := "random_time"
  fixed_interval_minutes := 30
  random_min_minutes := 15
  random_max_minutes := 60
  use_random_mac := true
  custom_mac_list := []
  enabled := false
  start_time := ⟨0, 0⟩
  end_time := ⟨23, 59⟩

/-- Python `random.randint(a, b)` (defined for `a ≤ b`): the outcome of the
raw draw `r` is `a + r % (b - a + 1)`; every `r` lands in `[a, b]` and every
value of `[a, b]` arises. -/
def pyRandint (a b : Int) (r : Int) : Int := a + r % (b - a + 1)

/-- `MACScheduler.calculate_next_interval`: `fixed_interval_minutes * 60` when
`mode == "fixed_interval"`, otherwise a `randint` draw between
`random_min_minutes * 60` and `random_max_minutes * 60`. -/
def calculate_next_interval (config : SchedulerConfig) (r : Int) : Int :=
  if config.mode = "fixed_interval" then config.fixed_interval_minutes * 60
  else pyRandint (config.random_min_minutes * 60) (config.random_max_minutes * 60) r

/-- The configuration invariant: positive interval minutes, min ≤ max, and a
recognized mode. -/
def validConfig (config : SchedulerConfig) : Prop :=
  1 ≤ config.fixed_interval_minutes ∧ 1 ≤ config.random_min_minutes ∧
    config.random_min_minutes ≤ config.random_max_minutes ∧
    (config.mode = "fixed_interval" ∨ config.mode = "random_time")

instance (config : SchedulerConfig) : Decidable (validConfig config) := by
  unfold validConfig; infer_instance

/-- A `pyRandint` draw over a nonempty range lies within the range. -/
theorem pyRandint_mem {a b : Int} (hab : a ≤ b) (r : Int) :
    a ≤ pyRandint a b r ∧ pyRandint a b r ≤ b := by
  have hm : 0 < b - a + 1 := by omega
  have h1 : 0 ≤ r % (b - a + 1) := Int.emod_nonneg r (by omega)
  have h2 : r % (b - a + 1) < b - a + 1 := Int.emod_lt_of_pos r hm
  unfold pyRandint
  omega

/-- Every value of the range is a possible `pyRandint` outcome. -/
theorem pyRandint_surj {a b v : Int} (h1 : a ≤ v) (h2 : v ≤ b) :
    pyRandint a b (v - a) = v := by
  unfold pyRandint
  rw [Int.emod_eq_of_lt (by omega) (by omega)]
  omega

/-! ### Scheduler lifecycle: `start`, `stop`, `status` -/

/-- The transient in-memory run state of a `MACScheduler`: the `is_running`
flag, the number of `scheduler_loop` threads ever spawned, and the number of
rotations (`change_mac_scheduled` calls) performed so far by this object. -/
structure SchedulerState where
  is_running : Bool
  threads_spawned : Nat
  rotations : Nat
deriving DecidableEq, Repr

/-- The state of a freshly constructed `MACScheduler`. -/
def initState : SchedulerState := ⟨false, 0, 0⟩

/-- The four distinct failure messages `start` can print before returning
`False`, in source order. -/
inductive StartError where
  | alreadyRunning
  | disabled
  | privilegeRequired
  | interfaceNotFound
deriving DecidableEq, Repr

/-- What `start` probes from outside: `mac_changer.is_admin` and the interface
names of `mac_changer.get_network_interfaces()`. -/
structure StartEnv where
  is_admin : Bool
  interfaces : List String
deriving DecidableEq, Repr

/-- `MACScheduler.start`: the four pre-flight checks in source order; on
success the flag is set, one `scheduler_loop` thread is spawned and the call
returns at once without rotating. -/
def start (config : SchedulerConfig) (env : StartEnv) (st : SchedulerState) :
    Option StartError × SchedulerState :=
  if st.is_running then (some .alreadyRunning, st)
  else if !config.enabled then (some .disabled, st)
  else if !env.is_admin then (some .privilegeRequired, st)
  else if config.interface ∉ env.interfaces then (some .interfaceNotFound, st)
  else (none,
    { st with is_running := true, threads_spawned := st.threads_spawned + 1 })

/-- `stop`'s two outcomes: `False` after "Scheduler is not running", or `True`. -/
inductive StopResult where
  | notRunning
  | stopped
deriving DecidableEq, Repr

/-- The grace period `stop` passes to `Thread.join` (seconds). -/
def stopJoinTimeout : Nat := 5

/-- `MACScheduler.stop`: clears the flag and joins the thread with a 5-second
timeout.  Returns the result, the new state, and the upper bound (seconds) on
how long the call blocks. -/
def stop (st : SchedulerState) : StopResult × SchedulerState × Nat :=
  if !st.is_running then (.notRunning, st, 0)
  else (.stopped, { st with is_running := false },
    if st.threads_spawned = 0 then 0 else stopJoinTimeout)

/-- `MACScheduler.status`: the `Running: Yes/No` line. -/
def statusRunning (st : SchedulerState) : Bool := st.is_running

/-! ### The scheduler loop's wait -/

/-- The inner wait of `scheduler_loop` ("Wait for next interval (check every
30 seconds for stop signal)"): `elapsed` is the Python `elapsed` counter,
`interval` the computed rotation interval, `tNow` the absolute time in seconds
and `tStop` the absolute time at which a stop request flips `is_running` to
false.  Each pass sleeps `min(30, next_interval - elapsed)` seconds with a
plain, uninterruptible `time.sleep` and then adds 30 to `elapsed`.  Returns
the absolute time at which the wait returns control to the outer loop. -/
def waitExit (elapsed interval tStop tNow : Nat) : Nat :=
  if _h : elapsed < interval ∧ tNow < tStop then
    waitExit (elapsed + 30) interval tStop (tNow + min 30 (interval - elapsed))
  else tNow
termination_by interval - elapsed
decreasing_by omega

/-- `scheduler_loop`, abstracted to the absolute times at which it invokes
`change_mac_scheduled`: the loop runs while `is_running` holds (that is,
while the current time precedes `tStop`), rotating and then waiting out the
`k`-th interval draw.  `fuel` bounds how many iterations are observed. -/
def loopRotationTimes : Nat → (Nat → Nat) → Nat → Nat → Nat → List Nat
  | 0, _, _, _, _ => []
  | fuel + 1, intervals, tStop, k, tNow =>
    if tNow < tStop then
      tNow :: loopRotationTimes fuel intervals tStop (k + 1)
        (waitExit 0 (intervals k) tStop tNow)
    else []

/-- After a stop request at `tStop`, the wait returns within 30 seconds (the
polling granularity), whenever it started no later than `tStop + 30`. -/
theorem waitExit_le_stop (elapsed interval tStop tNow : Nat)
    (h : tNow ≤ tStop + 30) :
    waitExit elapsed interval tStop tNow ≤ tStop + 30 := by
  rw [waitExit]
  split
  · rename_i hc
    have hmin : min 30 (interval - elapsed) ≤ 30 := min_le_left _ _
    exact waitExit_le_stop (elapsed + 30) interval tStop
      (tNow + min 30 (interval - elapsed)) (by omega)
  · exact h
termination_by interval - elapsed
decreasing_by omega

/-- The wait never overshoots the configured interval. -/
theorem waitExit_le_interval (elapsed interval tStop tNow : Nat) :
    waitExit elapsed interval tStop tNow ≤ tNow + (interval - elapsed) := by
  rw [waitExit]
  split
  · rename_i hc
    have hmin : min 30 (interval - elapsed) ≤ 30 := min_le_left _ _
    have hmin2 : min 30 (interval - elapsed) ≤ interval - elapsed := min_le_right _ _
    have ih := waitExit_le_interval (elapsed + 30) interval tStop
      (tNow + min 30 (interval - elapsed))
    omega
  · omega
termination_by interval - elapsed
decreasing_by omega

/-- Every rotation the loop performs happens strictly before the stop
request: once the flag is observed false, no further rotation occurs. -/
theorem loopRotationTimes_lt_stop (fuel : Nat) (intervals : Nat → Nat)
    (tStop k tNow : Nat) :
    ∀ t ∈ loopRotationTimes fuel intervals tStop k tNow, t < tStop := by
  induction fuel generalizing k tNow with
  | zero => intro t ht; simp [loopRotationTimes] at ht
  | succ fuel ih =>
    intro t ht
    rw [loopRotationTimes] at ht
    split at ht
    · rename_i hrun
      rcases List.mem_cons.mp ht with rfl | ht'
      · exact hrun
      · exact ih _ _ t ht'
    · simp at ht

/-! ### Interactive interval configuration (`configure_interactive`) -/

/-- One line of user input at a numeric prompt of `configure_interactive`:
blank (keep the current value), an integer, or text on which `int()` raises
`ValueError`. -/
inductive UserIn where
  | blank
  | num (n : Int)
  | junk
deriving DecidableEq, Repr

/-- The positive-integer prompt loop (used for `fixed_interval_minutes` and
`random_min_minutes`): re-prompts until the input is blank (keep `cur`) or an
integer `> 0`; `none` when the input stream ends with no accepted value. -/
def promptPosInt (cur : Int) : List UserIn → Option Int
  | [] => none
  | .blank :: _ => some cur
  | .num n :: rest => if 0 < n then some n else promptPosInt cur rest
  | .junk :: rest => promptPosInt cur rest

/-- The `random_max_minutes` prompt loop: re-prompts until the input is blank
(keep `cur`) or an integer `>= minVal` (the possibly just-updated
`random_min_minutes`). -/
def promptMaxInt (minVal cur : Int) : List UserIn → Option Int
  | [] => none
  | .blank :: _ => some cur
  | .num n :: rest => if minVal ≤ n then some n else promptMaxInt minVal cur rest
  | .junk :: rest => promptMaxInt minVal cur rest

/-- The interval-configuration section of `configure_interactive` (the part
after mode selection): in `fixed_interval` mode one positive-integer prompt
edits `fixed_interval_minutes`; in any other mode the min prompt requires only
a positive integer — with no comparison against the current max — and the max
prompt requires a value `>=` the updated min.  The returned config is what the
unconditional `save_config()` at the end of `configure_interactive`
persists. -/
def configureIntervals (config : SchedulerConfig)
    (fixedIn minIn maxIn : List UserIn) : Option SchedulerConfig :=
  if config.mode = "fixed_interval" then
    (promptPosInt config.fixed_interval_minutes fixedIn).map
      (fun v => { config with fixed_interval_minutes := v })
  else
    (promptPosInt config.random_min_minutes minIn).bind (fun mn =>
      (promptMaxInt mn config.random_max_minutes maxIn).map
        (fun mx => { config with random_min_minutes := mn,
                                 random_max_minutes := mx }))

/-! ## Claims -/

/-- C1: for every configured active window `(start_time, end_time)` and every
current time of day `now`, the schedule check returns true iff: when
`start_time ≤ end_time`, `start_time ≤ now ≤ end_time`; and when
`start_time > end_time` (overnight window), `now ≥ start_time` or
`now ≤ end_time`. -/
theorem claim_C1_is_within_schedule (start_time end_time now : TimeHM) :
    is_within_schedule start_time end_time now = true ↔
      ((TimeHM.le start_time end_time ∧
          TimeHM.le start_time now ∧ TimeHM.le now end_time) ∨
        (¬ TimeHM.le start_time end_time ∧
          (TimeHM.le start_time now ∨ TimeHM.le now end_time))) := by
  unfold is_within_schedule
  split
  · rename_i hle
    simp [hle]
  · rename_i hgt
    simp [hgt]

/-- C2: for every valid config, `calculate_next_interval` returns
`fixed_interval_minutes * 60` seconds in fixed-interval mode; in random-range
mode every draw lands in `[random_min_minutes * 60, random_max_minutes * 60]`
inclusive and every value of that range is attainable; in particular for
min=15, max=60 every returned value lies in `[900, 3600]`. -/
theorem claim_C2_calculate_next_interval (config : SchedulerConfig)
    (hv : validConfig config) (r : Int) :
    (config.mode = "fixed_interval" →
      calculate_next_interval config r = config.fixed_interval_minutes * 60) ∧
    (config.mode = "random_time" →
      (config.random_min_minutes * 60 ≤ calculate_next_interval config r ∧
        calculate_next_interval config r ≤ config.random_max_minutes * 60) ∧
      ∀ v : Int, config.random_min_minutes * 60 ≤ v →
        v ≤ config.random_max_minutes * 60 →
        ∃ rr : Int, calculate_next_interval config rr = v) ∧
    (config.mode = "random_time" → config.random_min_minutes = 15 →
      config.random_max_minutes = 60 →
      900 ≤ calculate_next_interval config r ∧
        calculate_next_interval config r ≤ 3600) := by
  obtain ⟨hf, hmn, hmm, hmode⟩ := hv
  refine ⟨fun hm => ?_, fun hm => ?_, fun hm h15 h60 => ?_⟩
  · simp [calculate_next_interval, hm]
  · have hne : config.mode ≠ "fixed_interval" := by rw [hm]; decide
    have hab : config.random_min_minutes * 60 ≤ config.random_max_minutes * 60 := by
      omega
    constructor
    · simpa [calculate_next_interval, hne] using pyRandint_mem hab r
    · intro v h1 h2
      exact ⟨v - config.random_min_minutes * 60, by
        simp [calculate_next_interval, hne, pyRandint_surj h1 h2]⟩
  · have hne : config.mode ≠ "fixed_interval" := by rw [hm]; decide
    have hab : config.random_min_minutes * 60 ≤ config.random_max_minutes * 60 := by
      omega
    have hmem := pyRandint_mem hab r
    have hcalc : calculate_next_interval config r =
        pyRandint (config.random_min_minutes * 60)
          (config.random_max_minutes * 60) r := by
      simp [calculate_next_interval, hne]
    rw [h15, h60] at hmem
    rw [hcalc, h15, h60]
    norm_num at hmem ⊢
    omega

/-- C2 witness: the defaults (random-range mode, min=15, max=60) are valid and
the draw with raw value 0 lies in `[900, 3600]`. -/
theorem claim_C2_witness :
    validConfig default_config ∧
      900 ≤ calculate_next_interval default_config 0 ∧
        calculate_next_interval default_config 0 ≤ 3600 := by
  have h := claim_C2_calculate_next_interval default_config (by decide) 0
  exact ⟨by decide, h.2.2 rfl rfl rfl⟩

/-- C10: for every config whose `mode` is anything other than
`"fixed_interval"` — including unrecognized strings from a hand-edited file —
`calculate_next_interval` silently takes the random-range branch instead of
rejecting the config, and (when min ≤ max) stays within the random range. -/
theorem claim_C10_mode_fallback (config : SchedulerConfig) (r : Int)
    (hmode : config.mode ≠ "fixed_interval") :
    calculate_next_interval config r =
      pyRandint (config.random_min_minutes * 60)
        (config.random_max_minutes * 60) r ∧
    (config.random_min_minutes ≤ config.random_max_minutes →
      config.random_min_minutes * 60 ≤ calculate_next_interval config r ∧
        calculate_next_interval config r ≤ config.random_max_minutes * 60) := by
  have hcalc : calculate_next_interval config r =
      pyRandint (config.random_min_minutes * 60)
        (config.random_max_minutes * 60) r := by
    simp [calculate_next_interval, hmode]
  refine ⟨hcalc, fun hle => ?_⟩
  rw [hcalc]
  exact pyRandint_mem (by omega) r

/-- C10 witness: a config whose mode is the garbage string `"corrupted"` is
processed as a random-range draw, landing in `[900, 3600]`. -/
theorem claim_C10_witness :
    900 ≤ calculate_next_interval { default_config with mode := "corrupted" } 7 ∧
      calculate_next_interval { default_config with mode := "corrupted" } 7 ≤ 3600 := by
  have h := claim_C10_mode_fallback { default_config with mode := "corrupted" } 7
    (by decide)
  have h2 := h.2 (by decide)
  norm_num at h2
  exact h2

/-- C3: `start` fails — returning the failure and leaving the state unchanged,
spawning no loop — exactly when, checked in source order: it is already
running, the config is disabled, the caller lacks privileges, or the interface
is not enumerable; otherwise it sets the running flag, spawns exactly one loop
thread, performs no rotation itself, and a second `start` fails with
`alreadyRunning` and spawns no second loop. -/
theorem claim_C3_start (config : SchedulerConfig) (env : StartEnv)
    (st : SchedulerState) :
    ((start config env st).1 = some .alreadyRunning ↔ st.is_running = true) ∧
    ((start config env st).1 = some .disabled ↔
      st.is_running = false ∧ config.enabled = false) ∧
    ((start config env st).1 = some .privilegeRequired ↔
      st.is_running = false ∧ config.enabled = true ∧ env.is_admin = false) ∧
    ((start config env st).1 = some .interfaceNotFound ↔
      st.is_running = false ∧ config.enabled = true ∧ env.is_admin = true ∧
        config.interface ∉ env.interfaces) ∧
    ((start config env st).1 = none ↔
      st.is_running = false ∧ config.enabled = true ∧ env.is_admin = true ∧
        config.interface ∈ env.interfaces) ∧
    (∀ e, (start config env st).1 = some e → (start config env st).2 = st) ∧
    ((start config env st).1 = none →
      (start config env st).2 =
        { st with is_running := true, threads_spawned := st.threads_spawned + 1 }) ∧
    ((start config env st).1 = none →
      (start config env ((start config env st).2)).1 = some .alreadyRunning ∧
        (start config env ((start config env st).2)).2 =
          (start config env st).2) := by
  by_cases h1 : st.is_running = true
  · simp [start, h1]
  · simp only [Bool.not_eq_true] at h1
    by_cases h2 : config.enabled = true
    · by_cases h3 : env.is_admin = true
      · by_cases h4 : config.interface ∈ env.interfaces
        · simp [start, h1, h2, h3, h4]
        · simp [start, h1, h2, h3, h4]
      · simp only [Bool.not_eq_true] at h3
        simp [start, h1, h2, h3]
    · simp only [Bool.not_eq_true] at h2
      simp [start, h1, h2]

/-- C3 witness: from the initial state with an enabled config, admin rights
and an existing interface, `start` succeeds, sets the flag, and a second
`start` fails with `alreadyRunning`; with a disabled config it fails with
`disabled`. -/
theorem claim_C3_witness :
    (start { default_config with enabled := true } ⟨true, ["Wi-Fi"]⟩
        initState).1 = none ∧
    (start { default_config with enabled := true } ⟨true, ["Wi-Fi"]⟩
        initState).2.is_running = true ∧
    (start { default_config with enabled := true } ⟨true, ["Wi-Fi"]⟩
        ((start { default_config with enabled := true } ⟨true, ["Wi-Fi"]⟩
          initState).2)).1 = some .alreadyRunning ∧
    (start default_config ⟨true, ["Wi-Fi"]⟩ initState).1 = some .disabled := by
  obtain ⟨hA, hD, hP, hI, hN, hFail, hSucc, hTwice⟩ :=
    claim_C3_start { default_config with enabled := true } ⟨true, ["Wi-Fi"]⟩
      initState
  have hnone : (start { default_config with enabled := true }
      ⟨true, ["Wi-Fi"]⟩ initState).1 = none := hN.mpr (by decide)
  refine ⟨hnone, ?_, (hTwice hnone).1, ?_⟩
  · rw [hSucc hnone]
  · obtain ⟨-, hD2, -⟩ :=
      claim_C3_start default_config ⟨true, ["Wi-Fi"]⟩ initState
    exact hD2.mpr (by decide)

/-- C4: `stop` is a no-op returning `notRunning` when already stopped;
otherwise it clears the flag, blocks at most the 5-second join timeout, and
afterwards the state is stopped and `status` reports not running. -/
theorem claim_C4_stop (st : SchedulerState) :
    (st.is_running = false → stop st = (.notRunning, st, 0)) ∧
    (st.is_running = true →
      (stop st).1 = .stopped ∧ (stop st).2.1.is_running = false ∧
        statusRunning (stop st).2.1 = false ∧
        (stop st).2.2 ≤ stopJoinTimeout) := by
  constructor
  · intro h
    simp [stop, h]
  · intro h
    refine ⟨by simp [stop, h], by simp [stop, h], by simp [stop, h, statusRunning], ?_⟩
    simp only [stop, h, Bool.not_true, Bool.false_eq_true, if_false]
    split <;> simp [stopJoinTimeout]

/-- C4 witness: stopping a never-started scheduler is a no-op returning
`notRunning`; stopping a running one yields `stopped`, a non-running status
and a block bounded by the 5-second grace period. -/
theorem claim_C4_witness :
    stop initState = (.notRunning, initState, 0) ∧
      (stop ⟨true, 1, 0⟩).1 = .stopped ∧
      statusRunning (stop ⟨true, 1, 0⟩).2.1 = false ∧
      (stop ⟨true, 1, 0⟩).2.2 ≤ stopJoinTimeout := by
  have h1 := (claim_C4_stop initState).1 rfl
  have h2 := (claim_C4_stop ⟨true, 1, 0⟩).2 rfl
  exact ⟨h1, h2.1, h2.2.2.1, h2.2.2.2⟩

/-- C5 counterexample: the loop's sleep is a plain chunked `time.sleep`, not
an interruptible wait.  With a 3600-second interval and a stop request one
second into the sleep, the wait only returns at t=30 — a 29-second latency,
refuting sub-second responsiveness; and with a 20-second interval the wait
runs out the entire remaining interval (returns at t=20). -/
theorem claim_C5_counterexample :
    waitExit 0 3600 1 0 = 30 ∧ ¬ (waitExit 0 3600 1 0 ≤ 2) ∧
      waitExit 0 20 1 0 = 20 := by
  have e1 : waitExit 0 3600 1 0 = 30 := by
    rw [waitExit]
    norm_num
    rw [waitExit]
    norm_num
  have e2 : waitExit 0 20 1 0 = 20 := by
    rw [waitExit]
    norm_num
    rw [waitExit]
    norm_num
  exact ⟨e1, by omega, e2⟩

/-- C5 amended: the inter-rotation sleep is a chunked polling wait of
30-second granularity: a stop request is observed within at most 30 seconds
(not sub-second), the wait never overshoots the rotation interval, and after
the stop is observed the loop performs no further rotation (every rotation
time precedes the stop request). -/
theorem claim_C5_amended (elapsed interval tStop tNow : Nat)
    (hstart : tNow ≤ tStop + 30) (fuel : Nat) (intervals : Nat → Nat)
    (tStop2 k t0 : Nat) :
    waitExit elapsed interval tStop tNow ≤ tStop + 30 ∧
    waitExit elapsed interval tStop tNow ≤ tNow + (interval - elapsed) ∧
    ∀ t ∈ loopRotationTimes fuel intervals tStop2 k t0, t < tStop2 :=
  ⟨waitExit_le_stop elapsed interval tStop tNow hstart,
   waitExit_le_interval elapsed interval tStop tNow,
   loopRotationTimes_lt_stop fuel intervals tStop2 k t0⟩

/-- C5 witness: instantiating the amended bounds at the counterexample's
numbers, and the no-rotation-after-stop property at a one-iteration run
rotating at t=5 with the stop at t=10. -/
theorem claim_C5_witness :
    waitExit 0 3600 1 0 ≤ 1 + 30 ∧ waitExit 0 3600 1 0 ≤ 0 + (3600 - 0) ∧
      (5 : Nat) < 10 := by
  have h := claim_C5_amended 0 3600 1 0 (by omega) 1 (fun _ => 3600) 10 0 5
  refine ⟨h.1, h.2.1, ?_⟩
  apply h.2.2 5
  decide

/-- C6: at the failing input — the default config (random mode, min=15,
max=60), the user typing `100` at the min prompt and leaving the max prompt
blank — `configure_interactive` accepts the edit and persists a config with
`random_min_minutes = 100 > random_max_minutes = 60`.  The min prompt checks
only positivity, never the comparison with the current max, so the invariant
the claim requires every edit to preserve is violated. -/
theorem claim_C6_configure_bug :
    configureIntervals default_config [] [.num 100] [.blank] =
      some { default_config with random_min_minutes := 100,
                                 random_max_minutes := 60 } ∧
    ∃ config', configureIntervals default_config [] [.num 100] [.blank] =
        some config' ∧
      ¬ (config'.random_min_minutes ≤ config'.random_max_minutes) := by
  refine ⟨by decide, ⟨_, rfl, by decide⟩⟩

/-- C7 counterexample: `validate_mac_address` accepts
`"02:11:22:33:44:55\n"` — a string with an extra character beyond the six
2-hex-digit groups — because Python's `$` (without `re.MULTILINE`) also
matches just before a single trailing newline.  The claim's "any string with
extra characters is rejected" is therefore false. -/
theorem claim_C7_counterexample :
    validate_mac_address "02:11:22:33:44:55\n" = true ∧
      ¬ sixGroupsPos ("02:11:22:33:44:55\n".data) := by
  exact ⟨by decide, by decide⟩

/-- C7 amended: `validate_mac_address` returns true exactly for the strings
consisting of six 2-hex-digit groups delimited by colons or hyphens
(case-insensitive), optionally followed by one trailing newline; everything
else — different group counts, other extra characters, undelimited forms — is
rejected. -/
theorem claim_C7_amended (s : String) :
    validate_mac_address s = true ↔
      sixGroupsPos s.data ∨
        ∃ t : List Char, s.data = t ++ ['\n'] ∧ sixGroupsPos t :=
  validate_eq_true_iff s

/-- C8: every address `generate_random_mac` produces — whatever the draws —
has a first octet in `{0x02, 0x06, 0x0A, 0x0E}` (locally administered,
unicast), its five remaining octets ranging over all of `[0, 255]`, and the
produced string passes `validate_mac_address`. -/
theorem claim_C8_generate_random_mac (choice : Fin 4) (o0 o1 o2 o3 o4 : Fin 256) :
    validate_mac_address (generate_random_mac choice o0 o1 o2 o3 o4) = true ∧
      firstOctetVal (generate_random_mac choice o0 o1 o2 o3 o4) ∈
        ({2, 6, 10, 14} : Finset Nat) :=
  generate_random_mac_valid choice o0 o1 o2 o3 o4

/-- C9: for every string accepted by `validate_mac_address`, normalizing with
a `':'` or `'-'` separator yields a string `validate_mac_address` accepts
again. -/
theorem claim_C9_normalize_roundtrip (s : String) (sep : Char)
    (hv : validate_mac_address s = true) (hsep : isSep sep = true) :
    validate_mac_address (normalize_mac s sep) = true :=
  normalize_roundtrip s sep hv hsep

/-- C9 witness: round-trip at a concrete hyphen-and-lowercase input. -/
theorem claim_C9_witness :
    validate_mac_address "02-11-22-aa-44-55" = true ∧ isSep ':' = true ∧
      validate_mac_address (normalize_mac "02-11-22-aa-44-55" ':') = true :=
  ⟨by decide, by decide,
    claim_C9_normalize_roundtrip "02-11-22-aa-44-55" ':' (by decide) (by decide)⟩

/-- C1 witness: the overnight window `22:00`-`06:00` of the spec's example is
active at `23:30` and inactive at `10:00`. -/
theorem claim_C1_witness :
    is_within_schedule ⟨22, 0⟩ ⟨6, 0⟩ ⟨23, 30⟩ = true ∧
      ¬ is_within_schedule ⟨22, 0⟩ ⟨6, 0⟩ ⟨10, 0⟩ = true := by
  constructor
  · exact (claim_C1_is_within_schedule ⟨22, 0⟩ ⟨6, 0⟩ ⟨23, 30⟩).mpr
      (Or.inr ⟨by decide, Or.inl (by decide)⟩)
  · intro h
    have h2 := (claim_C1_is_within_schedule ⟨22, 0⟩ ⟨6, 0⟩ ⟨10, 0⟩).mp h
    rcases h2 with ⟨h3, -⟩ | ⟨-, h4 | h4⟩
    · exact absurd h3 (by decide)
    · exact absurd h4 (by decide)
    · exact absurd h4 (by decide)

/-- C7 witness: the amended characterization applied at a mixed-case
colon-separated input. -/
theorem claim_C7_witness : validate_mac_address "0A:bC:22:33:44:5f" = true :=
  (claim_C7_amended "0A:bC:22:33:44:5f").mpr (Or.inl (by decide))

/-- C8 witness: the generator at the all-zero draws. -/
theorem claim_C8_witness :
    validate_mac_address (generate_random_mac 0 0 0 0 0 0) = true ∧
      firstOctetVal (generate_random_mac 0 0 0 0 0 0) ∈
        ({2, 6, 10, 14} : Finset Nat) :=
  claim_C8_generate_random_mac 0 0 0 0 0 0

end MacChanger
